import Mathlib

/-!
Verification of the foodbot core (src/bot.py) against its specification.

The Python program is shallowly embedded: worksheets become explicit data,
the wall clock is passed as an explicit argument, and fallible operations
return `Option` / `Bool` results exactly where the source catches
exceptions.  All definitions are executable.  Definitions come first,
theorems follow.
-/

namespace FoodBot

/-! ## Calendar dates and times of day

`datetime.date` and `datetime.time` values are modelled by their fields;
Python compares both lexicographically. -/

structure PDate where
  year : Nat
  month : Nat
  day : Nat
deriving DecidableEq, Repr

structure PTime where
  hour : Nat
  minute : Nat
  sec : Nat
deriving DecidableEq, Repr

structure PDateTime where
  date : PDate
  time : PTime
deriving DecidableEq, Repr

/-- Lexicographic `<` on dates, as Python compares `datetime.date` values. -/
def dateLtP (a b : PDate) : Prop :=
  a.year < b.year ∨ (a.year = b.year ∧
    (a.month < b.month ∨ (a.month = b.month ∧ a.day < b.day)))

instance (a b : PDate) : Decidable (dateLtP a b) := by
  unfold dateLtP; infer_instance

/-- Lexicographic `<` on times of day, as Python compares `datetime.time`. -/
def timeLtP (a b : PTime) : Prop :=
  a.hour < b.hour ∨ (a.hour = b.hour ∧
    (a.minute < b.minute ∨ (a.minute = b.minute ∧ a.sec < b.sec)))

instance (a b : PTime) : Decidable (timeLtP a b) := by
  unfold timeLtP; infer_instance

/-- The comparison `a >= b` on times of day (`current_time >= Config.DEADLINE_TIME`). -/
def timeGeP (a b : PTime) : Prop := ¬ timeLtP a b

instance (a b : PTime) : Decidable (timeGeP a b) := by
  unfold timeGeP; infer_instance

/-- The deadline `Config.DEADLINE_TIME = time(8, 0)`. -/
def DEADLINE_TIME : PTime := ⟨8, 0, 0⟩

/-- Embeds `is_date_locked` (src/bot.py lines 65-85).  The source reads the
clock via `get_current_datetime()`; in the embedding `now` is an explicit
argument, so the decision is a function of `(target_date, now)`. -/
def is_date_locked (target_date : PDate) (now : PDateTime) : Bool :=
  let today := now.date
  let current_time := now.time
  if dateLtP target_date today then
    true
  else if target_date = today ∧ timeGeP current_time DEADLINE_TIME then
    true
  else
    false

/-! ## Gregorian-calendar validity, as checked by `datetime.date.__new__` -/

def isLeapYear (y : Nat) : Bool :=
  decide (y % 4 = 0 ∧ (y % 100 ≠ 0 ∨ y % 400 = 0))

def daysInMonth (y m : Nat) : Nat :=
  if m = 2 then (if isLeapYear y then 29 else 28)
  else if m = 4 ∨ m = 6 ∨ m = 9 ∨ m = 11 then 30
  else 31

/-- The validity check performed by the `datetime` constructor
(`MINYEAR = 1`, `MAXYEAR = 9999`, month and day ranges). -/
def validYMD (y m d : Nat) : Prop :=
  1 ≤ y ∧ y ≤ 9999 ∧ 1 ≤ m ∧ m ≤ 12 ∧ 1 ≤ d ∧ d ≤ daysInMonth y m

instance (y m d : Nat) : Decidable (validYMD y m d) := by
  unfold validYMD; infer_instance

/-- The constructor `datetime(y, m, d)`: `some` on valid field values, `none` where the
constructor would raise `ValueError`. -/
def mkPDate (y m d : Nat) : Option PDate :=
  if validYMD y m d then some ⟨y, m, d⟩ else none

/-! ## `datetime.strptime` for the four formats used by the source

CPython compiles each format directive to a regular expression
(`_strptime.TimeRE`): `%Y` is exactly four digits, `%m` is
`1[0-2]|0[1-9]|[1-9]`, `%d` is `3[0-1]|[1-2]\d|0[1-9]|[1-9]| [1-9]`, and a
match must consume the whole string.  The alternatives are tried in order
with backtracking, which the `List`-of-candidates combinators reproduce. -/

def dval (c : Char) : Nat := c.toNat - 48

/-- Candidate parses for `%d`, in CPython's alternation order. -/
def dayAlts : List Char → List (Nat × List Char)
  | c1 :: c2 :: rest =>
    (if c1 = '3' ∧ (c2 = '0' ∨ c2 = '1') then [(30 + dval c2, rest)] else []) ++
    (if (c1 = '1' ∨ c1 = '2') ∧ c2.isDigit then
      [(dval c1 * 10 + dval c2, rest)] else []) ++
    (if c1 = '0' ∧ ('1' ≤ c2 ∧ c2 ≤ '9') then [(dval c2, rest)] else []) ++
    (if '1' ≤ c1 ∧ c1 ≤ '9' then [(dval c1, c2 :: rest)] else []) ++
    (if c1 = ' ' ∧ ('1' ≤ c2 ∧ c2 ≤ '9') then [(dval c2, rest)] else [])
  | [c1] => if '1' ≤ c1 ∧ c1 ≤ '9' then [(dval c1, [])] else []
  | [] => []

/-- Candidate parses for `%m`, in CPython's alternation order. -/
def monAlts : List Char → List (Nat × List Char)
  | c1 :: c2 :: rest =>
    (if c1 = '1' ∧ (c2 = '0' ∨ c2 = '1' ∨ c2 = '2') then
      [(10 + dval c2, rest)] else []) ++
    (if c1 = '0' ∧ ('1' ≤ c2 ∧ c2 ≤ '9') then [(dval c2, rest)] else []) ++
    (if '1' ≤ c1 ∧ c1 ≤ '9' then [(dval c1, c2 :: rest)] else [])
  | [c1] => if '1' ≤ c1 ∧ c1 ≤ '9' then [(dval c1, [])] else []
  | [] => []

/-- Directive `%Y`: exactly four digits. -/
def year4 : List Char → Option (Nat × List Char)
  | a :: b :: c :: d :: rest =>
    if a.isDigit ∧ b.isDigit ∧ c.isDigit ∧ d.isDigit then
      some (dval a * 1000 + dval b * 100 + dval c * 10 + dval d, rest)
    else none
  | _ => none

/-- A literal character in the format string. -/
def litChar (c : Char) : List Char → Option (List Char)
  | x :: rest => if x = c then some rest else none
  | [] => none

/-- Matches `%d<sep>%m<sep>%Y` against the whole string, returning
`(year, month, day)`. -/
def matchDMY (sep : Char) (cs : List Char) : Option (Nat × Nat × Nat) :=
  (dayAlts cs).findSome? fun dc =>
    (litChar sep dc.2).bind fun cs2 =>
      (monAlts cs2).findSome? fun mc =>
        (litChar sep mc.2).bind fun cs3 =>
          (year4 cs3).bind fun yc =>
            if yc.2 = [] then some (yc.1, mc.1, dc.1) else none

/-- Matches `%Y-%m-%d` against the whole string, returning
`(year, month, day)`. -/
def matchYMD (cs : List Char) : Option (Nat × Nat × Nat) :=
  (year4 cs).bind fun yc =>
    (litChar '-' yc.2).bind fun cs2 =>
      (monAlts cs2).findSome? fun mc =>
        (litChar '-' mc.2).bind fun cs3 =>
          (dayAlts cs3).findSome? fun dc =>
            if dc.2 = [] then some (yc.1, mc.1, dc.1) else none

/-- The four formats tried by `_normalize_date`, in source order. -/
inductive DateFmt where
  | ymd : DateFmt
  | dmyDot : DateFmt
  | dmySlash : DateFmt
  | dmyDash : DateFmt
deriving DecidableEq, Repr

def fmtList : List DateFmt := [.ymd, .dmyDot, .dmySlash, .dmyDash]

/-- Embeds `datetime.strptime(s, fmt).date()`: the regex match followed by the
`datetime` constructor's validity check; `none` where Python raises
`ValueError`. -/
def pyStrptimeDate (s : String) : DateFmt → Option PDate
  | .ymd => (matchYMD s.toList).bind fun t => mkPDate t.1 t.2.1 t.2.2
  | .dmyDot => (matchDMY '.' s.toList).bind fun t => mkPDate t.1 t.2.1 t.2.2
  | .dmySlash => (matchDMY '/' s.toList).bind fun t => mkPDate t.1 t.2.1 t.2.2
  | .dmyDash => (matchDMY '-' s.toList).bind fun t => mkPDate t.1 t.2.1 t.2.2

/-! ## `strftime("%Y-%m-%d")`

On the deployment platform (CPython with glibc) `%Y` renders the year as an
unpadded decimal while `%m` and `%d` are zero-padded to two digits; for the
year 500 the result is `"500-01-01"`. -/

def digitChar (n : Nat) : Char := Char.ofNat (48 + n)

def pad2 (n : Nat) : String := ⟨[digitChar (n / 10 % 10), digitChar (n % 10)]⟩

/-- The year field of `strftime("%Y-...")`: unpadded decimal (written out
for the reachable range `y ≤ 9999`). -/
def yearStr (y : Nat) : String :=
  if 1000 ≤ y then
    ⟨[digitChar (y / 1000 % 10), digitChar (y / 100 % 10),
      digitChar (y / 10 % 10), digitChar (y % 10)]⟩
  else if 100 ≤ y then
    ⟨[digitChar (y / 100), digitChar (y / 10 % 10), digitChar (y % 10)]⟩
  else if 10 ≤ y then ⟨[digitChar (y / 10), digitChar (y % 10)]⟩
  else ⟨[digitChar y]⟩

def strftimeYMD (p : PDate) : String :=
  yearStr p.year ++ "-" ++ pad2 p.month ++ "-" ++ pad2 p.day

/-! ## `re.search` for the three fixed date patterns -/

inductive Tok where
  | dig : Tok
  | lit (c : Char) : Tok
deriving DecidableEq, Repr

/-- Pattern `\d{4}-\d{2}-\d{2}`. -/
def pat_ymd : List Tok :=
  [.dig, .dig, .dig, .dig, .lit '-', .dig, .dig, .lit '-', .dig, .dig]

/-- Pattern `\d{2}\.\d{2}\.\d{4}`. -/
def pat_dmyDot : List Tok :=
  [.dig, .dig, .lit '.', .dig, .dig, .lit '.', .dig, .dig, .dig, .dig]

/-- Pattern `\d{2}/\d{2}/\d{4}`. -/
def pat_dmySlash : List Tok :=
  [.dig, .dig, .lit '/', .dig, .dig, .lit '/', .dig, .dig, .dig, .dig]

def patList : List (List Tok) := [pat_ymd, pat_dmyDot, pat_dmySlash]

/-- Matches a fixed-shape pattern at the head of the input, returning the
matched characters. -/
def matchToks : List Tok → List Char → Option (List Char)
  | [], _ => some []
  | .dig :: ts, c :: cs =>
    if c.isDigit then (matchToks ts cs).map (c :: ·) else none
  | .lit x :: ts, c :: cs =>
    if c = x then (matchToks ts cs).map (c :: ·) else none
  | _ :: _, [] => none

/-- Embeds `re.search`: the leftmost match of the pattern, as `match.group()`. -/
def searchToks (ts : List Tok) : List Char → Option (List Char)
  | [] => matchToks ts []
  | c :: cs =>
    match matchToks ts (c :: cs) with
    | some m => some m
    | none => searchToks ts cs

/-! ## Worksheet cell values and `_normalize_date` -/

/-- A cell value as seen by the template scanner: Python `None`, a string,
an integer, or a `datetime`. -/
inductive CellVal where
  | vnone : CellVal
  | vstr (s : String) : CellVal
  | vint (n : Int) : CellVal
  | vdt (y m d : Nat) : CellVal
deriving DecidableEq, Repr

/-- Python truthiness of a cell value (`if not value`). -/
def pyTruthy : CellVal → Bool
  | .vnone => false
  | .vstr s => s != ""
  | .vint n => n != 0
  | .vdt _ _ _ => true

/-- A real Python `datetime` object always carries constructor-validated
fields; `WFb` records that class invariant for embedded `vdt` cells. -/
def CellVal.WFb : CellVal → Bool
  | .vdt y m d => decide (validYMD y m d)
  | _ => true

/-- Python `str(value)` for the embedded cell values. -/
def pyStr : CellVal → String
  | .vnone => "None"
  | .vstr s => s
  | .vint n => toString n
  | .vdt y m d => strftimeYMD ⟨y, m, d⟩ ++ " 00:00:00"

/-- Scans for `needle` as a prefix of some suffix of the haystack. -/
def containsAux (needle : List Char) : List Char → Bool
  | [] => needle.isEmpty
  | c :: cs => needle.isPrefixOf (c :: cs) || containsAux needle cs

/-- Python's `needle in haystack` substring test. -/
def strContains (hay needle : String) : Bool :=
  containsAux needle.toList hay.toList

/-- The whitespace characters removed by Python's `str.strip()`. -/
def isSpaceChar (c : Char) : Bool :=
  decide (c = ' ' ∨ c = '\t' ∨ c = '\n' ∨ c = '\r' ∨ c = '\x0b' ∨ c = '\x0c')

/-- Python's `str.strip()`: whitespace removed from both ends. -/
def pyStrip (s : String) : String :=
  ⟨((s.toList.dropWhile isSpaceChar).reverse.dropWhile isSpaceChar).reverse⟩

/-- Python's `str.replace`: left-to-right, non-overlapping; the fuel is the
haystack length (each step consumes at least one character). -/
def pyReplaceAux (needle repl : List Char) : Nat → List Char → List Char
  | _, [] => []
  | 0, cs => cs
  | fuel + 1, c :: cs =>
    if needle.isPrefixOf (c :: cs) then
      repl ++ pyReplaceAux needle repl fuel (cs.drop (needle.length - 1))
    else c :: pyReplaceAux needle repl fuel cs

/-- Python's `str.replace(needle, repl)` for a non-empty needle. -/
def pyReplace (s needle repl : String) : String :=
  if needle.toList.isEmpty then s
  else ⟨pyReplaceAux needle.toList repl.toList s.toList.length s.toList⟩

/-- Embeds `TemplateManager._normalize_date` (src/bot.py lines 264-315):
datetime instances are rendered directly; strings are stripped, a
`" 00:00:00"` suffix removed, the four `strptime` formats tried on the whole
string, and finally the three regex patterns searched and their extracts
re-tried against the four formats.  Any failure yields `None`. -/
def normalize_date (value : CellVal) : Option String :=
  if pyTruthy value then
    match value with
    | .vdt y m d => some (strftimeYMD ⟨y, m, d⟩)
    | _ =>
      let s0 := pyStrip (pyStr value)
      let s1 := if strContains s0 " 00:00:00" then pyReplace s0 " 00:00:00" ""
                else s0
      match fmtList.findSome? (pyStrptimeDate s1) with
      | some p => some (strftimeYMD p)
      | none =>
        match patList.findSome? (fun pat => (searchToks pat s1.toList).bind
            (fun sub => fmtList.findSome? (pyStrptimeDate ⟨sub⟩))) with
        | some p => some (strftimeYMD p)
        | none => none
  else none

/-- A canonical `DateKey`: ten characters `YYYY-MM-DD` denoting a valid
calendar date.  (Spec, §3 "DateKey".) -/
def isCanonicalDateKey (s : String) : Bool :=
  match s.toList with
  | [y1, y2, y3, y4, h1, m1, m2, h2, d1, d2] =>
    y1.isDigit && y2.isDigit && y3.isDigit && y4.isDigit && (h1 == '-') &&
    m1.isDigit && m2.isDigit && (h2 == '-') && d1.isDigit && d2.isDigit &&
    decide (validYMD (dval y1 * 1000 + dval y2 * 100 + dval y3 * 10 + dval y4)
      (dval m1 * 10 + dval m2) (dval d1 * 10 + dval d2))
  | _ => false

/-- Shape of every `some` result of `_normalize_date`: a valid calendar date
rendered by `strftime("%Y-%m-%d")`, canonical whenever the year has four
digits. -/
def GoodKey (s : String) : Prop :=
  ∃ y m d, validYMD y m d ∧ s = strftimeYMD ⟨y, m, d⟩ ∧
    (1000 ≤ y → isCanonicalDateKey s = true)

/-! ## `TemplateManager._parse_dates` (src/bot.py lines 231-249)

The scan walks the anchor row's cells from column 3 up to `sheet.max_column`;
a cell that normalizes to a date contributes the triple
`(col, col+1, col+2)` and the scan advances by three columns, otherwise it
advances by one.  `cellAt` gives the cell of the anchor row at each column;
the insertions into `date_columns` are returned in scan order. -/
def parseDatesAux (cellAt : Nat → CellVal) (maxCol col : Nat) :
    List (String × Nat × Nat × Nat) :=
  if col ≤ maxCol then
    match normalize_date (cellAt col) with
    | some d => (d, col, col + 1, col + 2) :: parseDatesAux cellAt maxCol (col + 3)
    | none => parseDatesAux cellAt maxCol (col + 1)
  else []
termination_by maxCol + 1 - col
decreasing_by all_goals omega

/-- The whole `_parse_dates` scan, starting at column 3 ("column C"). -/
def parse_dates (cellAt : Nat → CellVal) (maxCol : Nat) :
    List (String × Nat × Nat × Nat) :=
  parseDatesAux cellAt maxCol 3

/-! ## The orders workbook (orders.xlsx)

`headers` holds the row-1 cell values from column 4 rightwards (columns 1-3
are `ID`/name/class); `rows` holds the data rows from row 2 downwards, with
the column-1 id and the flag cells from column 4 rightwards.  A cell that
was never written reads as `none` (openpyxl `None`). -/

structure OrderRow where
  id : String
  cells : List (Option String)
deriving DecidableEq, Repr

structure OrdersSheet where
  headers : List (Option String)
  rows : List OrderRow
deriving DecidableEq, Repr

/-- Reading a cell list at an index; out of range is an unwritten cell. -/
def getAt : List (Option String) → Nat → Option String
  | [], _ => none
  | x :: _, 0 => x
  | _ :: xs, i + 1 => getAt xs i

/-- Writing a cell list at an index, materialising unwritten cells before
it, as openpyxl materialises a written cell at any coordinate. -/
def setAt : List (Option String) → Nat → String → List (Option String)
  | [], 0, v => [some v]
  | [], n + 1, v => none :: setAt [] n v
  | _ :: t, 0, v => some v :: t
  | h :: t, n + 1, v => h :: setAt t n v

/-- One step of the header scan shared by `save_order`,
`get_student_orders` and `count_for_date`:
`if header and date_str in str(header): if "_breakfast" in ... elif ...`,
the last matching column winning. -/
def colStep (date_str : String) (col : Nat) (header : Option String)
    (acc : Option Nat × Option Nat × Option Nat) :
    Option Nat × Option Nat × Option Nat :=
  match header with
  | none => acc
  | some h =>
    if h != "" && strContains h date_str then
      if strContains h "_breakfast" then (some col, acc.2.1, acc.2.2)
      else if strContains h "_lunch" then (acc.1, some col, acc.2.2)
      else if strContains h "_snack" then (acc.1, acc.2.1, some col)
      else acc
    else acc

def findColsAux (date_str : String) :
    Nat → List (Option String) → Option Nat × Option Nat × Option Nat →
      Option Nat × Option Nat × Option Nat
  | _, [], acc => acc
  | col, h :: t, acc => findColsAux date_str (col + 1) t (colStep date_str col h acc)

/-- The column search `for col in range(4, ws.max_column + 1)`: columns are
numbered from 4 at the head of `headers`. -/
def findCols (date_str : String) (headers : List (Option String)) :
    Option Nat × Option Nat × Option Nat :=
  findColsAux date_str 4 headers (none, none, none)

/-- The data row at an index. -/
def rowAt : List OrderRow → Nat → Option OrderRow
  | [], _ => none
  | row :: _, 0 => some row
  | _ :: rest, r + 1 => rowAt rest r

/-- The loop `for r in range(2, ws.max_row + 1): if str(ws.cell(r, 1).value) ==
student_id`: index of the first data row whose id matches. -/
def findRowIdx : List OrderRow → String → Option Nat
  | [], _ => none
  | row :: rest, student_id =>
    if row.id == student_id then some 0
    else (findRowIdx rest student_id).map (· + 1)

/-- Python's `all([breakfast_col, lunch_col, snack_col])`: all three columns
of a date's triple were located. -/
def colsFound (t : Option Nat × Option Nat × Option Nat) : Bool :=
  t.1.isSome && t.2.1.isSome && t.2.2.isSome

/-- Invariant of the header scan: every located column lies in `[4, col)`,
and located columns are pairwise distinct (each scan step assigns the
current column to at most one slot). -/
def ColsInv (col : Nat) (acc : Option Nat × Option Nat × Option Nat) : Prop :=
  (∀ v, acc.1 = some v → 4 ≤ v ∧ v < col) ∧
  (∀ v, acc.2.1 = some v → 4 ≤ v ∧ v < col) ∧
  (∀ v, acc.2.2 = some v → 4 ≤ v ∧ v < col) ∧
  (∀ u v, acc.1 = some u → acc.2.1 = some v → u ≠ v) ∧
  (∀ u v, acc.1 = some u → acc.2.2 = some v → u ≠ v) ∧
  (∀ u v, acc.2.1 = some u → acc.2.2 = some v → u ≠ v)

/-- Reads `ws.cell(row, column).value` for a data row and a flag column `c ≥ 4`. -/
def readCell (ws : OrdersSheet) (r c : Nat) : Option String :=
  (rowAt ws.rows r).bind fun row => getAt row.cells (c - 4)

/-- Updates the cell list of the `r`-th data row. -/
def setRowCells : List OrderRow → Nat → Nat → String → List OrderRow
  | [], _, _, _ => []
  | row :: rest, 0, i, v => { row with cells := setAt row.cells i v } :: rest
  | row :: rest, r + 1, i, v => row :: setRowCells rest r i v

/-- Writes `ws.cell(row, column, value)` for a data row and a flag column `c ≥ 4`. -/
def writeCell (ws : OrdersSheet) (r c : Nat) (v : String) : OrdersSheet :=
  { ws with rows := setRowCells ws.rows r (c - 4) v }

/-- A `FlagSet`: the meals dict `{'breakfast', 'lunch', 'snack'}`. -/
structure Meals where
  breakfast : Bool
  lunch : Bool
  snack : Bool
deriving DecidableEq, Repr

/-- Embeds `Database._empty_meals()`. -/
def empty_meals : Meals := ⟨false, false, false⟩

/-- The cell marker written by `save_order`. -/
def mark (b : Bool) : String := if b then "✅" else ""

/-- Embeds the record-store part of `Database.save_order` (src/bot.py lines
536-582): parse the date string, refuse locked dates, locate the student
row and the date's three columns — returning failure if the row or any of
the three columns is missing — then write the three markers.  The result is
the Python return value together with the resulting orders sheet. -/
def save_order (now : PDateTime) (ws : OrdersSheet)
    (student_id date_str : String) (meals : Meals) : Bool × OrdersSheet :=
  match pyStrptimeDate date_str .ymd with
  | none => (false, ws)
  | some target_date =>
    if is_date_locked target_date now then (false, ws)
    else
      match findRowIdx ws.rows student_id with
      | none => (false, ws)
      | some r =>
        match findCols date_str ws.headers with
        | (some b, some l, some s) =>
          let ws1 := writeCell ws r b (mark meals.breakfast)
          let ws2 := writeCell ws1 r l (mark meals.lunch)
          let ws3 := writeCell ws2 r s (mark meals.snack)
          (true, ws3)
        | _ => (false, ws)

/-- Embeds `Database.get_student_orders` (src/bot.py lines 596-641): the
all-false default when the student row or any of the date's three columns
is missing, otherwise the three cells compared against the marker. -/
def get_student_orders (ws : OrdersSheet) (student_id date_str : String) :
    Meals :=
  match findRowIdx ws.rows student_id with
  | none => empty_meals
  | some r =>
    match findCols date_str ws.headers with
    | (some b, some l, some s) =>
      ⟨readCell ws r b == some "✅", readCell ws r l == some "✅",
       readCell ws r s == some "✅"⟩
    | _ => empty_meals

/-- Embeds `get_student_orders` including the file load: `load_workbook` may raise
(`none`), in which case the enclosing `try` returns the all-false default. -/
def get_student_orders_load (file : Option OrdersSheet)
    (student_id date_str : String) : Meals :=
  match file with
  | none => empty_meals
  | some ws => get_student_orders ws student_id date_str

structure MealCounts where
  breakfast : Nat
  lunch : Nat
  snack : Nat
deriving DecidableEq, Repr

/-- Embeds `Database.count_for_date` (src/bot.py lines 646-684): zeros when
any of the date's three columns is missing, otherwise the number of data
rows carrying the marker in each column. -/
def count_for_date (ws : OrdersSheet) (date_str : String) : MealCounts :=
  match findCols date_str ws.headers with
  | (some b, some l, some s) =>
    ⟨ws.rows.countP (fun row => getAt row.cells (b - 4) == some "✅"),
     ws.rows.countP (fun row => getAt row.cells (l - 4) == some "✅"),
     ws.rows.countP (fun row => getAt row.cells (s - 4) == some "✅")⟩
  | _ => ⟨0, 0, 0⟩

/-- A row of students.xlsx: `(id, full name, class)`. -/
structure StudentRow where
  sid : String
  name : String
  cls : String
deriving DecidableEq, Repr

/-- Embeds `Database.verify_student`: the first students-file row whose id
matches, or `none`. -/
def verify_student (students : List StudentRow) (student_id : String) :
    Option StudentRow :=
  students.find? (fun row => row.sid == student_id)

/-- Embeds all of `Database.save_order` (src/bot.py lines 536-594),
including the best-effort mirror step: after the record-store write
succeeds, the student is looked up and `TemplateManager.update_order` is
invoked; its boolean result is discarded and `save_order` returns `True`
regardless.  The mirror state and its update function are abstract
(`μ`, `mirrorUpdate`), so the theorem quantifies over succeeding and
failing mirror writes alike. -/
def save_order_full {μ : Type} (now : PDateTime) (ws : OrdersSheet)
    (students : List StudentRow) (student_id date_str : String)
    (meals : Meals) (mirror : μ)
    (mirrorUpdate : String → String → Meals → μ → μ × Bool) :
    Bool × OrdersSheet × μ :=
  match pyStrptimeDate date_str .ymd with
  | none => (false, ws, mirror)
  | some target_date =>
    if is_date_locked target_date now then (false, ws, mirror)
    else
      match findRowIdx ws.rows student_id with
      | none => (false, ws, mirror)
      | some r =>
        match findCols date_str ws.headers with
        | (some b, some l, some s) =>
          let ws1 := writeCell ws r b (mark meals.breakfast)
          let ws2 := writeCell ws1 r l (mark meals.lunch)
          let ws3 := writeCell ws2 r s (mark meals.snack)
          let mirror1 :=
            match verify_student students student_id with
            | some st =>
              if st.name != "" then (mirrorUpdate st.name date_str meals mirror).1
              else mirror
            | none => mirror
          (true, ws3, mirror1)
        | _ => (false, ws, mirror)

/-! ## Reminders (ReminderManager / send_reminders) -/

/-- Embeds `ReminderManager.get_all_users_with_reminders`: the subscribers
whose reminder flag is enabled. -/
def get_all_users_with_reminders (reminders : List (Nat × Bool)) : List Nat :=
  (reminders.filter (fun e => e.2)).map (fun e => e.1)

/-- Embeds `Database.check_tomorrow_order`: whether any flag is set for the
student on tomorrow's date key (computed from the clock by the caller). -/
def check_tomorrow_order (ws : OrdersSheet)
    (student_id tomorrowKey : String) : Bool :=
  let orders := get_student_orders ws student_id tomorrowKey
  orders.breakfast || orders.lunch || orders.snack

/-- The source `send_reminders` calls `self.db.get_user_student_id_from_storage(user_id)`
(src/bot.py line 882).  `Database` defines no such method — only
`get_user_student_id(user_id, user_sessions)` exists — so the attribute
lookup raises `AttributeError` on every call, which the per-user `except`
then swallows.  The embedding therefore always raises. -/
def get_user_student_id_from_storage (_user_id : Nat) :
    Except String String :=
  .error "AttributeError"

/-- The reminder window `Config.REMINDER_TIME = time(14, 0)`. -/
def REMINDER_TIME : PTime := ⟨14, 0, 0⟩

/-- Embeds the per-tick body of `FoodBot.send_reminders` (src/bot.py lines
863-920): inside the reminder window, for every enabled subscriber, resolve
a student id, check tomorrow's order and verify the student; the result is
the list of users actually messaged. -/
def send_reminders (now : PDateTime) (reminders : List (Nat × Bool))
    (ws : OrdersSheet) (students : List StudentRow) (tomorrowKey : String) :
    List Nat :=
  if now.time.hour = REMINDER_TIME.hour ∧ now.time.minute ≤ 9 then
    (get_all_users_with_reminders reminders).filter (fun user_id =>
      match get_user_student_id_from_storage user_id with
      | .error _ => false
      | .ok student_id =>
        if student_id != "" then
          if !check_tomorrow_order ws student_id tomorrowKey then
            (verify_student students student_id).isSome
          else false
        else false)
  else []

/-! ## Raw cell-map worksheet (openpyxl semantics) for
`Database._update_orders_file` -/

/-- A worksheet as openpyxl stores it: a finite map from `(row, column)`
coordinates to values; `max_row` / `max_column` are the largest coordinates
of any materialised cell. -/
structure XSheet where
  cells : List ((Nat × Nat) × String)
deriving DecidableEq, Repr

def XSheet.getCell (ws : XSheet) (r c : Nat) : Option String :=
  (ws.cells.find? (fun e => e.1 == (r, c))).map (fun e => e.2)

def XSheet.setCell (ws : XSheet) (r c : Nat) (v : String) : XSheet :=
  ⟨((r, c), v) :: ws.cells.filter (fun e => e.1 != (r, c))⟩

/-- Embeds `ws.max_column`. -/
def XSheet.maxCol (ws : XSheet) : Nat :=
  ws.cells.foldl (fun m e => max m e.1.2) 0

/-- Embeds `ws.max_row`. -/
def XSheet.maxRow (ws : XSheet) : Nat :=
  ws.cells.foldl (fun m e => max m e.1.1) 0

/-- The header triple for one date. -/
def dateHeaders (date_str : String) : List String :=
  [date_str ++ "_breakfast", date_str ++ "_lunch", date_str ++ "_snack"]

/-- Embeds `Database._update_orders_file` (src/bot.py lines 480-515) under
openpyxl semantics: read the header row up to `max_column`; keep the dates
whose three headers are not all present; append each new header at
`ws.max_column + 1`, re-evaluated before every write; then, for every data
row `2..max_row`, write `3 * len(new_dates)` empty cells, each again at the
sheet's current `max_column + 1` re-evaluated before every write, exactly
as the source does. -/
def update_orders_file (ws : XSheet) (dates : List String) : XSheet :=
  let current_headers := (List.range ws.maxCol).map (fun i => ws.getCell 1 (i + 1))
  let new_dates := dates.filter (fun d =>
    !((dateHeaders d).all (fun h => current_headers.contains (some h))))
  if new_dates.isEmpty then ws
  else
    let ws1 := new_dates.foldl (fun w d =>
      (dateHeaders d).foldl (fun w h => w.setCell 1 (w.maxCol + 1) h) w) ws
    (List.range' 2 (ws1.maxRow - 1)).foldl (fun w r =>
      (List.range (new_dates.length * 3)).foldl
        (fun w _ => w.setCell r (w.maxCol + 1) "") w) ws1

end FoodBot

namespace FoodBot

/-! # Theorems -/

theorem dateLtP_irrefl (a : PDate) : ¬ dateLtP a a := by
  unfold dateLtP; omega

theorem dateLtP_asymm {a b : PDate} (h : dateLtP a b) : ¬ dateLtP b a := by
  unfold dateLtP at *; omega

theorem dateLtP_ne {a b : PDate} (h : dateLtP a b) : a ≠ b := by
  rintro rfl; exact dateLtP_irrefl a h

/-- Claim C1: the edit-lock decision is `true` for every target date strictly
before `now`'s date; for a target date equal to `now`'s date it is `true`
exactly when `now`'s time of day is at or after the 08:00 deadline; and it is
`false` for every target date strictly after `now`'s date.  It is a total
boolean function of `(d, now)`. -/
theorem is_date_locked_spec (d : PDate) (now : PDateTime) :
    (dateLtP d now.date → is_date_locked d now = true) ∧
    (d = now.date → timeGeP now.time DEADLINE_TIME →
      is_date_locked d now = true) ∧
    (d = now.date → ¬ timeGeP now.time DEADLINE_TIME →
      is_date_locked d now = false) ∧
    (dateLtP now.date d → is_date_locked d now = false) := by
  refine ⟨?_, ?_, ?_, ?_⟩
  · intro h; simp [is_date_locked, h]
  · intro he hg; subst he
    simp [is_date_locked, dateLtP_irrefl, hg]
  · intro he hg; subst he
    simp [is_date_locked, dateLtP_irrefl, hg]
  · intro h
    have h1 : ¬ dateLtP d now.date := dateLtP_asymm h
    have h2 : d ≠ now.date := fun he => dateLtP_ne h he.symm
    simp [is_date_locked, h1, h2]

/-- Witness for C1 at the spec's own scenario: deadline 08:00,
now = 2024-03-04T08:00:00; "2024-03-03" and "2024-03-04" are locked,
"2024-03-05" is open, and at 07:59:59 "2024-03-04" is open. -/
theorem is_date_locked_spec_witness :
    is_date_locked ⟨2024, 3, 3⟩ ⟨⟨2024, 3, 4⟩, ⟨8, 0, 0⟩⟩ = true ∧
    is_date_locked ⟨2024, 3, 4⟩ ⟨⟨2024, 3, 4⟩, ⟨8, 0, 0⟩⟩ = true ∧
    is_date_locked ⟨2024, 3, 4⟩ ⟨⟨2024, 3, 4⟩, ⟨7, 59, 59⟩⟩ = false ∧
    is_date_locked ⟨2024, 3, 5⟩ ⟨⟨2024, 3, 4⟩, ⟨8, 0, 0⟩⟩ = false :=
  ⟨(is_date_locked_spec ⟨2024, 3, 3⟩ ⟨⟨2024, 3, 4⟩, ⟨8, 0, 0⟩⟩).1 (by decide),
   (is_date_locked_spec ⟨2024, 3, 4⟩ ⟨⟨2024, 3, 4⟩, ⟨8, 0, 0⟩⟩).2.1 (by decide)
     (by decide),
   (is_date_locked_spec ⟨2024, 3, 4⟩ ⟨⟨2024, 3, 4⟩, ⟨7, 59, 59⟩⟩).2.2.1
     (by decide) (by decide),
   (is_date_locked_spec ⟨2024, 3, 5⟩ ⟨⟨2024, 3, 4⟩, ⟨8, 0, 0⟩⟩).2.2.2
     (by decide)⟩

/-! ## Digit rendering and `_normalize_date` output shape -/

theorem digitChar_isDigit {k : Nat} (h : k ≤ 9) : (digitChar k).isDigit = true := by
  interval_cases k <;> decide

theorem dval_digitChar {k : Nat} (h : k ≤ 9) : dval (digitChar k) = k := by
  interval_cases k <;> decide

theorem string_data_append (a b : String) : (a ++ b).data = a.data ++ b.data := by
  cases a; cases b; rfl

theorem mkPDate_eq_some {y m d : Nat} {p : PDate} (h : mkPDate y m d = some p) :
    validYMD y m d ∧ p = ⟨y, m, d⟩ := by
  unfold mkPDate at h
  split at h
  · exact ⟨by assumption, by injection h; simp_all⟩
  · exact absurd h (by simp)

theorem pyStrptimeDate_valid {s : String} {f : DateFmt} {p : PDate}
    (h : pyStrptimeDate s f = some p) : validYMD p.year p.month p.day := by
  cases f <;> simp only [pyStrptimeDate, Option.bind_eq_some] at h <;>
    · obtain ⟨t, -, ht⟩ := h
      obtain ⟨hv, rfl⟩ := mkPDate_eq_some ht
      exact hv

theorem findSome?_pdate_valid {α : Type} {f : α → Option PDate}
    (hf : ∀ a p, f a = some p → validYMD p.year p.month p.day) :
    ∀ {l : List α} {p : PDate}, l.findSome? f = some p →
      validYMD p.year p.month p.day := by
  intro l
  induction l with
  | nil => intro p h; simp [List.findSome?_nil] at h
  | cons a as ih =>
    intro p h
    rw [List.findSome?_cons] at h
    cases hfa : f a with
    | some q => rw [hfa] at h; cases h; exact hf a p hfa
    | none => rw [hfa] at h; exact ih h

theorem toList_strftimeYMD {y m d : Nat} (hy : 1000 ≤ y) :
    (strftimeYMD ⟨y, m, d⟩).toList =
      [digitChar (y / 1000 % 10), digitChar (y / 100 % 10),
       digitChar (y / 10 % 10), digitChar (y % 10), '-',
       digitChar (m / 10 % 10), digitChar (m % 10), '-',
       digitChar (d / 10 % 10), digitChar (d % 10)] := by
  show (strftimeYMD ⟨y, m, d⟩).data = _
  simp only [strftimeYMD, yearStr, pad2, if_pos hy, string_data_append]
  rfl

theorem isCanonical_strftime {y m d : Nat} (hv : validYMD y m d)
    (hy : 1000 ≤ y) : isCanonicalDateKey (strftimeYMD ⟨y, m, d⟩) = true := by
  obtain ⟨h1, h2, h3, h4, h5, h6⟩ := hv
  unfold isCanonicalDateKey
  rw [show (strftimeYMD ⟨y, m, d⟩).toList = _ from toList_strftimeYMD hy]
  have ey : dval (digitChar (y / 1000 % 10)) * 1000 +
      dval (digitChar (y / 100 % 10)) * 100 +
      dval (digitChar (y / 10 % 10)) * 10 + dval (digitChar (y % 10)) = y := by
    rw [dval_digitChar (by omega), dval_digitChar (by omega),
      dval_digitChar (by omega), dval_digitChar (by omega)]
    omega
  have em : dval (digitChar (m / 10 % 10)) * 10 + dval (digitChar (m % 10)) = m := by
    rw [dval_digitChar (by omega), dval_digitChar (by omega)]; omega
  have hd31 : d ≤ 31 := by
    have h6' := h6
    unfold daysInMonth at h6'
    split at h6'
    · split at h6' <;> omega
    · split at h6' <;> omega
  have ed : dval (digitChar (d / 10 % 10)) * 10 + dval (digitChar (d % 10)) = d := by
    rw [dval_digitChar (by omega), dval_digitChar (by omega)]; omega
  simp only [digitChar_isDigit (by omega : y / 1000 % 10 ≤ 9),
    digitChar_isDigit (by omega : y / 100 % 10 ≤ 9),
    digitChar_isDigit (by omega : y / 10 % 10 ≤ 9),
    digitChar_isDigit (by omega : y % 10 ≤ 9),
    digitChar_isDigit (by omega : m / 10 % 10 ≤ 9),
    digitChar_isDigit (by omega : m % 10 ≤ 9),
    digitChar_isDigit (by omega : d / 10 % 10 ≤ 9),
    digitChar_isDigit (by omega : d % 10 ≤ 9),
    ey, em, ed, Bool.true_and, beq_self_eq_true, decide_eq_true_eq]
  exact ⟨h1, h2, h3, h4, h5, h6⟩

theorem strftime_GoodKey {p : PDate} (hv : validYMD p.year p.month p.day) :
    GoodKey (strftimeYMD p) := by
  refine ⟨p.year, p.month, p.day, hv, by cases p; rfl, fun hy => ?_⟩
  have := isCanonical_strftime hv hy
  cases p
  exact this

/-- Every `some` result of `_normalize_date` on a well-formed cell value is a
rendered valid calendar date (shared helper for the C10 claim). -/
theorem normalize_date_GoodKey (v : CellVal) (hwf : CellVal.WFb v = true)
    (s : String) (h : normalize_date v = some s) : GoodKey s := by
  unfold normalize_date at h
  by_cases ht : pyTruthy v = true
  case neg => rw [if_neg (by simpa using ht)] at h; cases h
  rw [if_pos ht] at h
  have hcomp : ∀ (s1 : String),
      (match fmtList.findSome? (pyStrptimeDate s1) with
      | some p => some (strftimeYMD p)
      | none =>
        match patList.findSome? (fun pat => (searchToks pat s1.toList).bind
            (fun sub => fmtList.findSome? (pyStrptimeDate ⟨sub⟩))) with
        | some p => some (strftimeYMD p)
        | none => none) = some s → GoodKey s := by
    intro s1 hm
    cases hf1 : fmtList.findSome? (pyStrptimeDate s1) with
    | some p =>
      rw [hf1] at hm; cases hm
      exact strftime_GoodKey
        (findSome?_pdate_valid (fun a p h => pyStrptimeDate_valid h) hf1)
    | none =>
      rw [hf1] at hm
      cases hf2 : patList.findSome? (fun pat => (searchToks pat s1.toList).bind
          (fun sub => fmtList.findSome? (pyStrptimeDate ⟨sub⟩))) with
      | some p =>
        rw [hf2] at hm; cases hm
        refine strftime_GoodKey (findSome?_pdate_valid ?_ hf2)
        intro pat p hp
        rw [Option.bind_eq_some] at hp
        obtain ⟨sub, -, hsub⟩ := hp
        exact findSome?_pdate_valid (fun a p h => pyStrptimeDate_valid h) hsub
      | none => rw [hf2] at hm; cases hm
  cases v with
  | vnone => simp [pyTruthy] at ht
  | vstr s' => exact hcomp _ h
  | vint n => exact hcomp _ h
  | vdt y m d =>
    cases h
    exact strftime_GoodKey (by simpa [CellVal.WFb] using hwf)

/-- Every key the `_parse_dates` scan inserts is a `_normalize_date` output
(shared helper for the C10 claim). -/
theorem parseDates_key_of_mem (cellAt : Nat → CellVal) (maxCol : Nat) :
    ∀ col e, e ∈ parseDatesAux cellAt maxCol col →
      ∃ c, normalize_date (cellAt c) = some e.1 := by
  have main : ∀ n col e, maxCol + 1 - col ≤ n →
      e ∈ parseDatesAux cellAt maxCol col →
      ∃ c, normalize_date (cellAt c) = some e.1 := by
    intro n
    induction n with
    | zero =>
      intro col e hcol he
      rw [parseDatesAux.eq_def, if_neg (by omega)] at he
      cases he
    | succ n ih =>
      intro col e hcol he
      rw [parseDatesAux.eq_def] at he
      by_cases hc : col ≤ maxCol
      · rw [if_pos hc] at he
        cases hn : normalize_date (cellAt col) with
        | some d =>
          rw [hn] at he
          rcases List.mem_cons.1 he with rfl | htail
          · exact ⟨col, hn⟩
          · exact ih (col + 3) e (by omega) htail
        | none =>
          rw [hn] at he
          exact ih (col + 1) e (by omega) he
      · rw [if_neg hc] at he; cases he
  intro col e he
  exact main (maxCol + 1 - col) col e le_rfl he

/-- Claim C8: in the mirror's date-column scan, at every column up to the
sheet's last column, a cell that parses as a date contributes the triple
`(col, col+1, col+2)` to the date map and advances the scan by three
columns, while a cell that fails to parse advances it by exactly one column
(and the scan stops past the last column). -/
theorem parse_dates_step (cellAt : Nat → CellVal) (maxCol col : Nat) :
    (maxCol < col → parseDatesAux cellAt maxCol col = []) ∧
    (col ≤ maxCol → ∀ d, normalize_date (cellAt col) = some d →
      parseDatesAux cellAt maxCol col =
        (d, col, col + 1, col + 2) :: parseDatesAux cellAt maxCol (col + 3)) ∧
    (col ≤ maxCol → normalize_date (cellAt col) = none →
      parseDatesAux cellAt maxCol col = parseDatesAux cellAt maxCol (col + 1)) := by
  refine ⟨?_, ?_, ?_⟩
  · intro h
    rw [parseDatesAux.eq_def, if_neg (by omega)]
  · intro hc d hn
    rw [parseDatesAux.eq_def, if_pos hc, hn]
  · intro hc hn
    rw [parseDatesAux.eq_def, if_pos hc, hn]

/-- Witness for C8 on a concrete anchor row: column 3 holds a date (scan
advances to column 6), column 4 holds a non-date (scan advances to
column 5), and column 7 is past `max_column = 6` (scan stops). -/
theorem parse_dates_step_witness :
    parseDatesAux (fun c => if c = 3 then CellVal.vstr "2024-03-04"
        else if c = 4 then CellVal.vstr "x" else CellVal.vnone) 6 3 =
      ("2024-03-04", 3, 4, 5) ::
        parseDatesAux (fun c => if c = 3 then CellVal.vstr "2024-03-04"
          else if c = 4 then CellVal.vstr "x" else CellVal.vnone) 6 6 ∧
    parseDatesAux (fun c => if c = 3 then CellVal.vstr "2024-03-04"
        else if c = 4 then CellVal.vstr "x" else CellVal.vnone) 6 4 =
      parseDatesAux (fun c => if c = 3 then CellVal.vstr "2024-03-04"
        else if c = 4 then CellVal.vstr "x" else CellVal.vnone) 6 5 ∧
    parseDatesAux (fun c => if c = 3 then CellVal.vstr "2024-03-04"
        else if c = 4 then CellVal.vstr "x" else CellVal.vnone) 6 7 = [] :=
  ⟨(parse_dates_step _ 6 3).2.1 (by omega) "2024-03-04" (by decide),
   (parse_dates_step _ 6 4).2.2 (by omega) (by decide),
   (parse_dates_step _ 6 7).1 (by omega)⟩

/-- Claim C10 (amended): `_normalize_date` returns `None` or a valid calendar
date rendered by `strftime("%Y-%m-%d")`, in which the month and day are
zero-padded but the year is an unpadded decimal; the result is a canonical
`YYYY-MM-DD` DateKey whenever the year is at least 1000 (years below 1000
render with fewer than four digits).  Consequently every key inserted into a
sheet's `date_columns` map by the scan has this same shape. -/
theorem normalize_date_canonical :
    (∀ v : CellVal, CellVal.WFb v = true → ∀ s, normalize_date v = some s →
      GoodKey s) ∧
    (∀ (cellAt : Nat → CellVal), (∀ c, CellVal.WFb (cellAt c) = true) →
      ∀ maxCol col e, e ∈ parseDatesAux cellAt maxCol col → GoodKey e.1) := by
  refine ⟨normalize_date_GoodKey, ?_⟩
  intro cellAt hwf maxCol col e he
  obtain ⟨c, hc⟩ := parseDates_key_of_mem cellAt maxCol col e he
  exact normalize_date_GoodKey (cellAt c) (hwf c) e.1 hc

/-- Witness for C10: the canonical-form conclusion at the concrete cell
value "04.03.2024". -/
theorem normalize_date_canonical_witness : GoodKey "2024-03-04" :=
  normalize_date_canonical.1 (CellVal.vstr "04.03.2024") (by decide)
    "2024-03-04" (by decide)

/-- Counterexample to C10 as stated: the year-500 date "01.01.0500"
normalizes to "500-01-01" (the year is not zero-padded on the deployment
platform), which is not a canonical `YYYY-MM-DD` DateKey. -/
theorem normalize_date_not_canonical_cex :
    normalize_date (CellVal.vstr "01.01.0500") = some "500-01-01" ∧
    isCanonicalDateKey "500-01-01" = false := by
  exact ⟨by decide, by decide⟩

/-! ## Cell-list and row-list lemmas -/

theorem getAt_setAt_self (i : Nat) (v : String) :
    ∀ l : List (Option String), getAt (setAt l i v) i = some v := by
  induction i with
  | zero => intro l; cases l <;> rfl
  | succ n ih =>
    intro l
    cases l with
    | nil => exact ih []
    | cons h t => exact ih t

theorem getAt_setAt_ne (i : Nat) (v : String) :
    ∀ (j : Nat), i ≠ j → ∀ l : List (Option String),
      getAt (setAt l i v) j = getAt l j := by
  induction i with
  | zero =>
    intro j hij l
    cases j with
    | zero => omega
    | succ k => cases l <;> rfl
  | succ n ih =>
    intro j hij l
    cases j with
    | zero => cases l <;> rfl
    | succ k =>
      have hnk : n ≠ k := by omega
      cases l with
      | nil => exact ih k hnk []
      | cons h t => exact ih k hnk t

theorem setRowCells_nil (r i : Nat) (v : String) :
    setRowCells [] r i v = [] := by
  cases r <;> rfl

theorem setRowCells_map_id (rows : List OrderRow) :
    ∀ r i v, (setRowCells rows r i v).map OrderRow.id = rows.map OrderRow.id := by
  induction rows with
  | nil => intro r i v; rw [setRowCells_nil]
  | cons a as ih =>
    intro r i v
    cases r with
    | zero => simp [setRowCells]
    | succ n => simp [setRowCells, ih]

theorem findRowIdx_id_map (sid : String) :
    ∀ rows rows' : List OrderRow,
      rows.map OrderRow.id = rows'.map OrderRow.id →
      findRowIdx rows sid = findRowIdx rows' sid := by
  intro rows
  induction rows with
  | nil =>
    intro rows' h
    cases rows' <;> simp_all [findRowIdx]
  | cons a as ih =>
    intro rows' h
    cases rows' with
    | nil => simp_all
    | cons b bs =>
      simp only [List.map_cons, List.cons.injEq] at h
      simp only [findRowIdx, h.1, ih bs h.2]

theorem findRowIdx_writeCell (ws : OrdersSheet) (r c : Nat) (v sid : String) :
    findRowIdx (writeCell ws r c v).rows sid = findRowIdx ws.rows sid := by
  exact findRowIdx_id_map sid _ _ (setRowCells_map_id ws.rows r (c - 4) v)

theorem writeCell_headers (ws : OrdersSheet) (r c : Nat) (v : String) :
    (writeCell ws r c v).headers = ws.headers := rfl

theorem rowAt_setRowCells (v : String) :
    ∀ (rows : List OrderRow) (r r' i : Nat),
      rowAt (setRowCells rows r i v) r' = (rowAt rows r').map
        (fun row => if r = r' then { row with cells := setAt row.cells i v }
          else row) := by
  intro rows
  induction rows with
  | nil => intro r r' i; rw [setRowCells_nil]; cases r' <;> rfl
  | cons a as ih =>
    intro r r' i
    cases r with
    | zero =>
      cases r' with
      | zero => simp [setRowCells, rowAt]
      | succ k => simp [setRowCells, rowAt]
    | succ n =>
      cases r' with
      | zero => simp [setRowCells, rowAt]
      | succ k =>
        show rowAt (setRowCells as n i v) k = (rowAt as k).map _
        rw [ih n k i]
        by_cases hnk : n = k <;> simp [hnk]

theorem readCell_writeCell_self (ws : OrdersSheet) (r c : Nat) (v : String)
    (row : OrderRow) (h : rowAt ws.rows r = some row) :
    readCell (writeCell ws r c v) r c = some v := by
  unfold readCell writeCell
  simp only [rowAt_setRowCells v ws.rows r r (c - 4), h, Option.map_some,
    if_pos rfl, Option.some_bind]
  exact getAt_setAt_self (c - 4) v row.cells

theorem readCell_writeCell_ne (ws : OrdersSheet) (r c c' : Nat) (v : String)
    (hcc : c - 4 ≠ c' - 4) :
    readCell (writeCell ws r c v) r c' = readCell ws r c' := by
  unfold readCell writeCell
  simp only [rowAt_setRowCells v ws.rows r r (c - 4)]
  cases h : rowAt ws.rows r with
  | none => rfl
  | some row =>
    simp only [Option.map_some, if_pos rfl, Option.some_bind]
    exact getAt_setAt_ne (c - 4) v (c' - 4) hcc row.cells

theorem findRowIdx_rowAt (sid : String) :
    ∀ (rows : List OrderRow) (r : Nat), findRowIdx rows sid = some r →
      ∃ row, rowAt rows r = some row := by
  intro rows
  induction rows with
  | nil => intro r h; exact absurd h (by simp [findRowIdx])
  | cons a as ih =>
    intro r h
    unfold findRowIdx at h
    by_cases hp : (a.id == sid) = true
    · rw [if_pos hp] at h
      cases h
      exact ⟨a, rfl⟩
    · rw [if_neg hp] at h
      cases hfk : findRowIdx as sid with
      | none => rw [hfk] at h; cases h
      | some k =>
        rw [hfk] at h
        obtain ⟨row, hrow⟩ := ih k hfk
        cases h
        exact ⟨row, hrow⟩

/-! ## Header-scan invariant: located columns are ≥ 4 and pairwise
distinct -/

theorem colStep_inv (date_str : String) (col : Nat) (h : Option String)
    (acc : Option Nat × Option Nat × Option Nat) (hcol : 4 ≤ col)
    (hinv : ColsInv col acc) : ColsInv (col + 1) (colStep date_str col h acc) := by
  obtain ⟨i1, i2, i3, i4, i5, i6⟩ := hinv
  have mono : ColsInv (col + 1) acc := by
    refine ⟨fun v hv => ?_, fun v hv => ?_, fun v hv => ?_, i4, i5, i6⟩
    · have := i1 v hv; omega
    · have := i2 v hv; omega
    · have := i3 v hv; omega
  cases h with
  | none => exact mono
  | some hs =>
    show ColsInv (col + 1)
      (if hs != "" && strContains hs date_str then
        if strContains hs "_breakfast" then (some col, acc.2.1, acc.2.2)
        else if strContains hs "_lunch" then (acc.1, some col, acc.2.2)
        else if strContains hs "_snack" then (acc.1, acc.2.1, some col)
        else acc
      else acc)
    split_ifs with hc hb hl hsn
    · refine ⟨fun v hv => ?_, fun v hv => ?_, fun v hv => ?_,
        fun u v hu hv => ?_, fun u v hu hv => ?_,
        fun u v hu hv => i6 u v hu hv⟩
      · cases hv; omega
      · have := i2 v hv; omega
      · have := i3 v hv; omega
      · cases hu; have := i2 v hv; omega
      · cases hu; have := i3 v hv; omega
    · refine ⟨fun v hv => ?_, fun v hv => ?_, fun v hv => ?_,
        fun u v hu hv => ?_, fun u v hu hv => i5 u v hu hv,
        fun u v hu hv => ?_⟩
      · have := i1 v hv; omega
      · cases hv; omega
      · have := i3 v hv; omega
      · cases hv; have := i1 u hu; omega
      · cases hu; have := i3 v hv; omega
    · refine ⟨fun v hv => ?_, fun v hv => ?_, fun v hv => ?_,
        fun u v hu hv => i4 u v hu hv, fun u v hu hv => ?_,
        fun u v hu hv => ?_⟩
      · have := i1 v hv; omega
      · have := i2 v hv; omega
      · cases hv; omega
      · cases hv; have := i1 u hu; omega
      · cases hv; have := i2 u hu; omega
    · exact mono
    · exact mono

theorem findColsAux_inv (date_str : String) :
    ∀ (hs : List (Option String)) (col : Nat)
      (acc : Option Nat × Option Nat × Option Nat), 4 ≤ col → ColsInv col acc →
      ColsInv (col + hs.length) (findColsAux date_str col hs acc) := by
  intro hs
  induction hs with
  | nil => intro col acc hcol h; simpa [findColsAux] using h
  | cons a t ih =>
    intro col acc hcol h
    have step := colStep_inv date_str col a acc hcol h
    have := ih (col + 1) (colStep date_str col a acc) (by omega) step
    simp only [findColsAux, List.length_cons]
    have harith : col + 1 + t.length = col + (t.length + 1) := by omega
    rwa [harith] at this

theorem findCols_distinct (date_str : String) (headers : List (Option String))
    (b l s : Nat) (h : findCols date_str headers = (some b, some l, some s)) :
    4 ≤ b ∧ 4 ≤ l ∧ 4 ≤ s ∧ b ≠ l ∧ b ≠ s ∧ l ≠ s := by
  have hinit : ColsInv 4 ((none, none, none) :
      Option Nat × Option Nat × Option Nat) := by
    refine ⟨?_, ?_, ?_, ?_, ?_, ?_⟩ <;> intros <;> simp_all
  have := findColsAux_inv date_str headers 4 (none, none, none) le_rfl hinit
  rw [show findColsAux date_str 4 headers (none, none, none) =
    findCols date_str headers from rfl, h] at this
  obtain ⟨i1, i2, i3, i4, i5, i6⟩ := this
  exact ⟨(i1 b rfl).1, (i2 l rfl).1, (i3 s rfl).1, i4 b l rfl rfl,
    i5 b s rfl rfl, i6 l s rfl rfl⟩

/-! ## Claim C2: row / column-triple creation on write -/

/-- Claim C2 (amended): `save_order` never creates a missing row or a
missing column-triple.  When the person's row is absent from the orders
sheet, or any of the date's three columns is absent, it returns failure and
leaves the sheet unchanged (rows and date columns are created only by the
startup routines `_create_new_orders_file` / `_update_orders_file`). -/
theorem save_order_requires_existing (now : PDateTime) (ws : OrdersSheet)
    (sid ds : String) (meals : Meals)
    (h : findRowIdx ws.rows sid = none ∨
      colsFound (findCols ds ws.headers) = false) :
    save_order now ws sid ds meals = (false, ws) := by
  unfold save_order
  cases hp : pyStrptimeDate ds .ymd with
  | none => rfl
  | some td =>
    by_cases hl : is_date_locked td now = true
    · simp only [hl, if_true]
    · simp only [Bool.not_eq_true] at hl
      simp only [hl, Bool.false_eq_true, if_false]
      cases hr : findRowIdx ws.rows sid with
      | none => rfl
      | some r =>
        rcases h with h | h
        · rw [hr] at h; cases h
        · rcases hc : findCols ds ws.headers with ⟨ob, ol, os⟩
          rw [hc] at h
          cases ob <;> cases ol <;> cases os <;>
            first | rfl | simp [colsFound] at h

/-- Witness for C2 (amended): saving for a person with no row in the
orders sheet fails and leaves the sheet unchanged. -/
theorem save_order_requires_existing_witness :
    save_order ⟨⟨2024, 3, 1⟩, ⟨7, 0, 0⟩⟩
      ⟨[some "2024-03-04_breakfast", some "2024-03-04_lunch",
        some "2024-03-04_snack"], []⟩ "100953" "2024-03-04"
      ⟨true, false, true⟩ =
      (false, ⟨[some "2024-03-04_breakfast", some "2024-03-04_lunch",
        some "2024-03-04_snack"], []⟩) :=
  save_order_requires_existing ⟨⟨2024, 3, 1⟩, ⟨7, 0, 0⟩⟩
    ⟨[some "2024-03-04_breakfast", some "2024-03-04_lunch",
      some "2024-03-04_snack"], []⟩ "100953" "2024-03-04"
    ⟨true, false, true⟩ (Or.inl (by decide))

/-- Counterexample to C2 as stated: person `100953` is present in the
directory snapshot, the date's column-triple exists and the date is not
locked, but the person's row is absent from the record store — `save_order`
returns failure and creates nothing, instead of creating the missing row. -/
theorem save_order_no_autocreate_cex :
    (save_order_full (⟨⟨2024, 3, 1⟩, ⟨7, 0, 0⟩⟩ : PDateTime)
        (⟨[some "2024-03-04_breakfast", some "2024-03-04_lunch",
           some "2024-03-04_snack"], []⟩ : OrdersSheet)
        [⟨"100953", "Ivanov", "5A"⟩] "100953" "2024-03-04"
        ⟨true, false, true⟩ () (fun _ _ _ m => (m, true))) =
      (false,
        (⟨[some "2024-03-04_breakfast", some "2024-03-04_lunch",
           some "2024-03-04_snack"], []⟩ : OrdersSheet), ()) ∧
    (verify_student [⟨"100953", "Ivanov", "5A"⟩] "100953").isSome = true ∧
    colsFound (findCols "2024-03-04"
      [some "2024-03-04_breakfast", some "2024-03-04_lunch",
       some "2024-03-04_snack"]) = true ∧
    is_date_locked ⟨2024, 3, 4⟩ ⟨⟨2024, 3, 1⟩, ⟨7, 0, 0⟩⟩ = false := by
  refine ⟨by decide, by decide, by decide, by decide⟩

/-! ## Claim C3: set-then-get round trip -/

/-- Claim C3: for a person whose row exists, a date whose column-triple
exists, and an unlocked date, `save_order` succeeds and an immediately
following `get_student_orders` returns exactly the written flags. -/
theorem save_then_get_roundtrip (now : PDateTime) (ws : OrdersSheet)
    (sid ds : String) (meals : Meals) (td : PDate)
    (hparse : pyStrptimeDate ds .ymd = some td)
    (hlock : is_date_locked td now = false)
    (r : Nat) (hrow : findRowIdx ws.rows sid = some r)
    (b l s : Nat) (hcols : findCols ds ws.headers = (some b, some l, some s)) :
    (save_order now ws sid ds meals).1 = true ∧
    get_student_orders (save_order now ws sid ds meals).2 sid ds = meals := by
  obtain ⟨hb4, hl4, hs4, hbl, hbs, hls⟩ := findCols_distinct ds ws.headers b l s hcols
  obtain ⟨row, hrowAt⟩ := findRowIdx_rowAt sid ws.rows r hrow
  have hsave : save_order now ws sid ds meals = (true,
      writeCell (writeCell (writeCell ws r b (mark meals.breakfast))
        r l (mark meals.lunch)) r s (mark meals.snack)) := by
    unfold save_order
    rw [hparse]
    simp only [hlock, Bool.false_eq_true, if_false]
    rw [hrow, hcols]
  rw [hsave]
  refine ⟨rfl, ?_⟩
  have hrowAt1 : rowAt (writeCell ws r b (mark meals.breakfast)).rows r =
      some { row with cells := setAt row.cells (b - 4) (mark meals.breakfast) } := by
    show rowAt (setRowCells ws.rows r (b - 4) (mark meals.breakfast)) r = _
    rw [rowAt_setRowCells, hrowAt]
    simp
  have hrowAt2 : rowAt (writeCell (writeCell ws r b (mark meals.breakfast))
      r l (mark meals.lunch)).rows r = some
      ⟨row.id, setAt (setAt row.cells (b - 4) (mark meals.breakfast)) (l - 4)
        (mark meals.lunch)⟩ := by
    show rowAt (setRowCells _ r (l - 4) (mark meals.lunch)) r = _
    rw [rowAt_setRowCells, hrowAt1]
    simp
  have hids : findRowIdx (writeCell (writeCell (writeCell ws r b
      (mark meals.breakfast)) r l (mark meals.lunch)) r s
      (mark meals.snack)).rows sid = some r := by
    rw [findRowIdx_writeCell, findRowIdx_writeCell, findRowIdx_writeCell, hrow]
  have hheads : (writeCell (writeCell (writeCell ws r b
      (mark meals.breakfast)) r l (mark meals.lunch)) r s
      (mark meals.snack)).headers = ws.headers := rfl
  unfold get_student_orders
  rw [hids, hheads, hcols]
  dsimp only
  have hread_b : readCell (writeCell (writeCell (writeCell ws r b
      (mark meals.breakfast)) r l (mark meals.lunch)) r s
      (mark meals.snack)) r b = some (mark meals.breakfast) := by
    rw [readCell_writeCell_ne _ r s b _ (by omega),
      readCell_writeCell_ne _ r l b _ (by omega)]
    exact readCell_writeCell_self ws r b _ row hrowAt
  have hread_l : readCell (writeCell (writeCell (writeCell ws r b
      (mark meals.breakfast)) r l (mark meals.lunch)) r s
      (mark meals.snack)) r l = some (mark meals.lunch) := by
    rw [readCell_writeCell_ne _ r s l _ (by omega)]
    exact readCell_writeCell_self _ r l _ _ hrowAt1
  have hread_s : readCell (writeCell (writeCell (writeCell ws r b
      (mark meals.breakfast)) r l (mark meals.lunch)) r s
      (mark meals.snack)) r s = some (mark meals.snack) :=
    readCell_writeCell_self _ r s _ _ hrowAt2
  rw [hread_b, hread_l, hread_s]
  cases meals with
  | mk mb ml ms => cases mb <;> cases ml <;> cases ms <;> rfl

/-- Witness for C3 on the spec's scenario: person `100953`, date
`2024-03-04`, flags (true, false, true), saved before the deadline. -/
theorem save_then_get_roundtrip_witness :
    (save_order ⟨⟨2024, 3, 1⟩, ⟨7, 0, 0⟩⟩
      ⟨[some "2024-03-04_breakfast", some "2024-03-04_lunch",
        some "2024-03-04_snack"], [⟨"100953", []⟩]⟩
      "100953" "2024-03-04" ⟨true, false, true⟩).1 = true ∧
    get_student_orders (save_order ⟨⟨2024, 3, 1⟩, ⟨7, 0, 0⟩⟩
      ⟨[some "2024-03-04_breakfast", some "2024-03-04_lunch",
        some "2024-03-04_snack"], [⟨"100953", []⟩]⟩
      "100953" "2024-03-04" ⟨true, false, true⟩).2
      "100953" "2024-03-04" = ⟨true, false, true⟩ :=
  save_then_get_roundtrip ⟨⟨2024, 3, 1⟩, ⟨7, 0, 0⟩⟩
    ⟨[some "2024-03-04_breakfast", some "2024-03-04_lunch",
      some "2024-03-04_snack"], [⟨"100953", []⟩]⟩
    "100953" "2024-03-04" ⟨true, false, true⟩ ⟨2024, 3, 4⟩ (by decide)
    (by decide) 0 (by decide) 4 5 6 (by decide)

/-! ## Claims C4 and C5: aggregation and defaults -/

theorem get_orders_cols_missing (ws : OrdersSheet) (ds : String)
    (h : colsFound (findCols ds ws.headers) = false) :
    ∀ sid, get_student_orders ws sid ds = empty_meals := by
  intro sid
  unfold get_student_orders
  cases hfr : findRowIdx ws.rows sid with
  | none => rfl
  | some i =>
    rcases hfc : findCols ds ws.headers with ⟨ob, ol, os⟩
    rw [hfc] at h
    cases ob <;> cases ol <;> cases os <;>
      first | rfl | simp [colsFound] at h

theorem count_cols_missing (ws : OrdersSheet) (ds : String)
    (h : colsFound (findCols ds ws.headers) = false) :
    count_for_date ws ds = ⟨0, 0, 0⟩ := by
  unfold count_for_date
  rcases hfc : findCols ds ws.headers with ⟨ob, ol, os⟩
  rw [hfc] at h
  cases ob <;> cases ol <;> cases os <;>
    first | rfl | simp [colsFound] at h

theorem findRowIdx_nodup_self :
    ∀ (rows : List OrderRow), (rows.map OrderRow.id).Nodup →
      ∀ row ∈ rows, ∃ i, findRowIdx rows row.id = some i ∧
        rowAt rows i = some row := by
  intro rows
  induction rows with
  | nil => intro _ row h; cases h
  | cons a as ih =>
    intro hnd row hmem
    simp only [List.map_cons, List.nodup_cons] at hnd
    obtain ⟨hna, hnd2⟩ := hnd
    rcases List.mem_cons.1 hmem with rfl | hmem2
    · exact ⟨0, by simp [findRowIdx], rfl⟩
    · by_cases heq : a.id = row.id
      · exact absurd (by rw [heq]; exact List.mem_map_of_mem OrderRow.id hmem2) hna
      · obtain ⟨i, hfi, hri⟩ := ih hnd2 row hmem2
        refine ⟨i + 1, ?_, hri⟩
        show (if (a.id == row.id) = true then some 0
          else (findRowIdx as row.id).map (· + 1)) = some (i + 1)
        rw [if_neg (by simpa using heq), hfi]
        rfl

theorem get_orders_of_row (ws : OrdersSheet) (ds : String) (b l s : Nat)
    (hcols : findCols ds ws.headers = (some b, some l, some s))
    (hnd : (ws.rows.map OrderRow.id).Nodup)
    (row : OrderRow) (hmem : row ∈ ws.rows) :
    get_student_orders ws row.id ds =
      ⟨getAt row.cells (b - 4) == some "✅",
       getAt row.cells (l - 4) == some "✅",
       getAt row.cells (s - 4) == some "✅"⟩ := by
  obtain ⟨i, hfi, hri⟩ := findRowIdx_nodup_self ws.rows hnd row hmem
  unfold get_student_orders
  rw [hfi, hcols]
  dsimp only
  unfold readCell
  rw [hri]
  rfl

/-- Claim C4: `count_for_date` returns zeros for an unknown date, and for
every date it counts, per slot, exactly the rows whose `get_student_orders`
has that slot true (row ids are unique per the data model). -/
theorem count_matches_get_orders (ws : OrdersSheet) (ds : String) :
    (colsFound (findCols ds ws.headers) = false →
      count_for_date ws ds = ⟨0, 0, 0⟩) ∧
    ((ws.rows.map OrderRow.id).Nodup →
      count_for_date ws ds =
        ⟨ws.rows.countP (fun row => (get_student_orders ws row.id ds).breakfast),
         ws.rows.countP (fun row => (get_student_orders ws row.id ds).lunch),
         ws.rows.countP (fun row => (get_student_orders ws row.id ds).snack)⟩) := by
  refine ⟨count_cols_missing ws ds, ?_⟩
  intro hnd
  by_cases hcf : colsFound (findCols ds ws.headers) = true
  · rcases hfc : findCols ds ws.headers with ⟨ob, ol, os⟩
    rw [hfc] at hcf
    cases ob with
    | none => simp [colsFound] at hcf
    | some b =>
      cases ol with
      | none => simp [colsFound] at hcf
      | some l =>
        cases os with
        | none => simp [colsFound] at hcf
        | some s =>
          unfold count_for_date
          rw [hfc]
          dsimp only
          have e1 : ws.rows.countP
              (fun row => getAt row.cells (b - 4) == some "✅") =
              ws.rows.countP
              (fun row => (get_student_orders ws row.id ds).breakfast) :=
            List.countP_congr (fun row hmem => by
              rw [get_orders_of_row ws ds b l s hfc hnd row hmem])
          have e2 : ws.rows.countP
              (fun row => getAt row.cells (l - 4) == some "✅") =
              ws.rows.countP
              (fun row => (get_student_orders ws row.id ds).lunch) :=
            List.countP_congr (fun row hmem => by
              rw [get_orders_of_row ws ds b l s hfc hnd row hmem])
          have e3 : ws.rows.countP
              (fun row => getAt row.cells (s - 4) == some "✅") =
              ws.rows.countP
              (fun row => (get_student_orders ws row.id ds).snack) :=
            List.countP_congr (fun row hmem => by
              rw [get_orders_of_row ws ds b l s hfc hnd row hmem])
          rw [e1, e2, e3]
  · have hmiss : colsFound (findCols ds ws.headers) = false := by
      simpa using hcf
    rw [count_cols_missing ws ds hmiss]
    have hz : ∀ p : OrderRow → Bool,
        (∀ row ∈ ws.rows, p row = false) → ws.rows.countP p = 0 := by
      intro p hp
      rw [List.countP_eq_zero]
      intro a ha
      simp [hp a ha]
    rw [hz _ (fun row hmem => by
        rw [get_orders_cols_missing ws ds hmiss row.id]; rfl),
      hz _ (fun row hmem => by
        rw [get_orders_cols_missing ws ds hmiss row.id]; rfl),
      hz _ (fun row hmem => by
        rw [get_orders_cols_missing ws ds hmiss row.id]; rfl)]

/-- Witness for C4 on the spec's scenario: after `100953` orders
(true, false, true) for 2024-03-04, counts are (1, 0, 1); an unknown date
counts (0, 0, 0). -/
theorem count_matches_get_orders_witness :
    count_for_date ⟨[some "2024-03-04_breakfast", some "2024-03-04_lunch",
        some "2024-03-04_snack"],
        [⟨"100953", [some "✅", some "", some "✅"]⟩, ⟨"100954", []⟩]⟩
      "2024-03-04" = ⟨1, 0, 1⟩ ∧
    count_for_date ⟨[some "2024-03-04_breakfast", some "2024-03-04_lunch",
        some "2024-03-04_snack"],
        [⟨"100953", [some "✅", some "", some "✅"]⟩, ⟨"100954", []⟩]⟩
      "2024-03-05" = ⟨0, 0, 0⟩ := by
  constructor
  · rw [(count_matches_get_orders _ "2024-03-04").2 (by decide)]
    decide
  · exact (count_matches_get_orders _ "2024-03-05").1 (by decide)

/-- Claim C5: `get_student_orders` returns the all-false default when the
underlying file is unreadable, when the person's row is absent, and when
the date's column-triple is absent; being a total function, it never
raises to the caller. -/
theorem get_student_orders_default (sid ds : String) :
    get_student_orders_load none sid ds = empty_meals ∧
    (∀ ws : OrdersSheet, findRowIdx ws.rows sid = none →
      get_student_orders_load (some ws) sid ds = empty_meals) ∧
    (∀ ws : OrdersSheet, colsFound (findCols ds ws.headers) = false →
      get_student_orders_load (some ws) sid ds = empty_meals) := by
  refine ⟨rfl, ?_, ?_⟩
  · intro ws h
    show get_student_orders ws sid ds = empty_meals
    unfold get_student_orders
    rw [h]
  · intro ws h
    exact get_orders_cols_missing ws ds h sid

/-- Witness for C5: unreadable file, missing person, and unknown date all
yield the all-false default. -/
theorem get_student_orders_default_witness :
    get_student_orders_load none "100953" "2024-03-04" = empty_meals ∧
    get_student_orders_load
      (some ⟨[some "2024-03-04_breakfast", some "2024-03-04_lunch",
        some "2024-03-04_snack"], [⟨"100954", []⟩]⟩)
      "100953" "2024-03-04" = empty_meals ∧
    get_student_orders_load
      (some ⟨[some "2024-03-04_breakfast", some "2024-03-04_lunch",
        some "2024-03-04_snack"], [⟨"100953", []⟩]⟩)
      "100953" "2024-03-05" = empty_meals :=
  ⟨(get_student_orders_default "100953" "2024-03-04").1,
   (get_student_orders_default "100953" "2024-03-04").2.1 _ (by decide),
   (get_student_orders_default "100953" "2024-03-05").2.2 _ (by decide)⟩

/-! ## Claim C6: mirror-failure isolation -/

/-- Claim C6: the outcome `save_order` reports, and the record-store state
it produces, are the same for every possible mirror update function — the
mirror step's result is discarded — and whenever the record-store write
succeeds the caller sees success, whatever the mirror did. -/
theorem save_order_mirror_isolation {μ : Type} (now : PDateTime)
    (ws : OrdersSheet) (students : List StudentRow) (sid ds : String)
    (meals : Meals) (mirror : μ)
    (f : String → String → Meals → μ → μ × Bool) :
    (save_order_full now ws students sid ds meals mirror f).1 =
      (save_order now ws sid ds meals).1 ∧
    (save_order_full now ws students sid ds meals mirror f).2.1 =
      (save_order now ws sid ds meals).2 ∧
    ((save_order now ws sid ds meals).1 = true →
      (save_order_full now ws students sid ds meals mirror f).1 = true) := by
  unfold save_order_full save_order
  cases hp : pyStrptimeDate ds .ymd with
  | none => exact ⟨rfl, rfl, fun h => nomatch h⟩
  | some td =>
    dsimp only
    by_cases hl : is_date_locked td now = true
    · rw [if_pos hl, if_pos hl]
      exact ⟨rfl, rfl, fun h => nomatch h⟩
    · rw [if_neg hl, if_neg hl]
      cases hr : findRowIdx ws.rows sid with
      | none => exact ⟨rfl, rfl, fun h => nomatch h⟩
      | some r =>
        rcases hc : findCols ds ws.headers with ⟨ob, ol, os⟩
        cases ob <;> cases ol <;> cases os <;>
          first
          | exact ⟨rfl, rfl, fun _ => rfl⟩
          | exact ⟨rfl, rfl, fun h => nomatch h⟩

/-- Witness for C6: the same successful save, once with a mirror update
that fails and changes nothing, once with one that succeeds — the reported
outcome is success in both cases. -/
theorem save_order_mirror_isolation_witness :
    (save_order_full ⟨⟨2024, 3, 1⟩, ⟨7, 0, 0⟩⟩
      ⟨[some "2024-03-04_breakfast", some "2024-03-04_lunch",
        some "2024-03-04_snack"], [⟨"100953", []⟩]⟩
      [⟨"100953", "Ivanov", "5A"⟩] "100953" "2024-03-04" ⟨true, false, true⟩
      (0 : Nat) (fun _ _ _ m => (m, false))).1 = true ∧
    (save_order_full ⟨⟨2024, 3, 1⟩, ⟨7, 0, 0⟩⟩
      ⟨[some "2024-03-04_breakfast", some "2024-03-04_lunch",
        some "2024-03-04_snack"], [⟨"100953", []⟩]⟩
      [⟨"100953", "Ivanov", "5A"⟩] "100953" "2024-03-04" ⟨true, false, true⟩
      (0 : Nat) (fun _ _ _ m => (m + 1, true))).1 = true :=
  ⟨(save_order_mirror_isolation ⟨⟨2024, 3, 1⟩, ⟨7, 0, 0⟩⟩
      ⟨[some "2024-03-04_breakfast", some "2024-03-04_lunch",
        some "2024-03-04_snack"], [⟨"100953", []⟩]⟩
      [⟨"100953", "Ivanov", "5A"⟩] "100953" "2024-03-04" ⟨true, false, true⟩
      (0 : Nat) (fun _ _ _ m => (m, false))).2.2 (by decide),
   (save_order_mirror_isolation ⟨⟨2024, 3, 1⟩, ⟨7, 0, 0⟩⟩
      ⟨[some "2024-03-04_breakfast", some "2024-03-04_lunch",
        some "2024-03-04_snack"], [⟨"100953", []⟩]⟩
      [⟨"100953", "Ivanov", "5A"⟩] "100953" "2024-03-04" ⟨true, false, true⟩
      (0 : Nat) (fun _ _ _ m => (m + 1, true))).2.2 (by decide)⟩

/-! ## Claim C7: schema growth in `_update_orders_file` -/

/-- Claim C7, evaluated at a failing input: growing the schema of a sheet
with header columns 1-6 and one data row by the new date `2024-03-05`
appends the header triple once, at columns 7-9, and a second growth request
for the same date changes nothing (the idempotence half); but the
"empty cells" the row loop writes land at columns 10-12 — beyond the
ever-growing `max_column` — so the data row has no cells under the new
header columns and the table is not rectangular (the padding half fails). -/
theorem update_orders_file_pads_wrong_columns :
    ((update_orders_file ⟨[((1, 1), "ID"),
        ((1, 4), "2024-03-04_breakfast"), ((1, 5), "2024-03-04_lunch"),
        ((1, 6), "2024-03-04_snack"), ((2, 1), "100953")]⟩
      ["2024-03-05"]).getCell 1 7 = some "2024-03-05_breakfast") ∧
    ((update_orders_file ⟨[((1, 1), "ID"),
        ((1, 4), "2024-03-04_breakfast"), ((1, 5), "2024-03-04_lunch"),
        ((1, 6), "2024-03-04_snack"), ((2, 1), "100953")]⟩
      ["2024-03-05"]).getCell 1 8 = some "2024-03-05_lunch") ∧
    ((update_orders_file ⟨[((1, 1), "ID"),
        ((1, 4), "2024-03-04_breakfast"), ((1, 5), "2024-03-04_lunch"),
        ((1, 6), "2024-03-04_snack"), ((2, 1), "100953")]⟩
      ["2024-03-05"]).getCell 1 9 = some "2024-03-05_snack") ∧
    ((update_orders_file ⟨[((1, 1), "ID"),
        ((1, 4), "2024-03-04_breakfast"), ((1, 5), "2024-03-04_lunch"),
        ((1, 6), "2024-03-04_snack"), ((2, 1), "100953")]⟩
      ["2024-03-05"]).getCell 2 7 = none) ∧
    ((update_orders_file ⟨[((1, 1), "ID"),
        ((1, 4), "2024-03-04_breakfast"), ((1, 5), "2024-03-04_lunch"),
        ((1, 6), "2024-03-04_snack"), ((2, 1), "100953")]⟩
      ["2024-03-05"]).getCell 2 8 = none) ∧
    ((update_orders_file ⟨[((1, 1), "ID"),
        ((1, 4), "2024-03-04_breakfast"), ((1, 5), "2024-03-04_lunch"),
        ((1, 6), "2024-03-04_snack"), ((2, 1), "100953")]⟩
      ["2024-03-05"]).getCell 2 9 = none) ∧
    ((update_orders_file ⟨[((1, 1), "ID"),
        ((1, 4), "2024-03-04_breakfast"), ((1, 5), "2024-03-04_lunch"),
        ((1, 6), "2024-03-04_snack"), ((2, 1), "100953")]⟩
      ["2024-03-05"]).getCell 2 10 = some "") ∧
    ((update_orders_file ⟨[((1, 1), "ID"),
        ((1, 4), "2024-03-04_breakfast"), ((1, 5), "2024-03-04_lunch"),
        ((1, 6), "2024-03-04_snack"), ((2, 1), "100953")]⟩
      ["2024-03-05"]).maxCol = 12) ∧
    (update_orders_file (update_orders_file ⟨[((1, 1), "ID"),
        ((1, 4), "2024-03-04_breakfast"), ((1, 5), "2024-03-04_lunch"),
        ((1, 6), "2024-03-04_snack"), ((2, 1), "100953")]⟩
      ["2024-03-05"]) ["2024-03-05"] =
      update_orders_file ⟨[((1, 1), "ID"),
        ((1, 4), "2024-03-04_breakfast"), ((1, 5), "2024-03-04_lunch"),
        ((1, 6), "2024-03-04_snack"), ((2, 1), "100953")]⟩
      ["2024-03-05"]) := by
  refine ⟨by decide, by decide, by decide, by decide, by decide, by decide,
    by decide, by decide, by decide⟩

/-! ## Claim C9: the reminder check -/

/-- Claim C9, evaluated at a failing input: subscriber 42 is enabled, their
tracked student `100953` resolves in the directory and has no order for
tomorrow — by the claim a reminder is due — yet `send_reminders` messages
nobody, because its student-id lookup calls the nonexistent method
`get_user_student_id_from_storage` and the raised `AttributeError` is
swallowed per user. -/
theorem send_reminders_sends_nothing_cex :
    get_all_users_with_reminders [(42, true)] = [42] ∧
    check_tomorrow_order ⟨[some "2024-03-05_breakfast",
        some "2024-03-05_lunch", some "2024-03-05_snack"],
        [⟨"100953", []⟩]⟩ "100953" "2024-03-05" = false ∧
    (verify_student [⟨"100953", "Ivanov", "5A"⟩] "100953").isSome = true ∧
    send_reminders ⟨⟨2024, 3, 4⟩, ⟨14, 3, 0⟩⟩ [(42, true)]
      ⟨[some "2024-03-05_breakfast", some "2024-03-05_lunch",
        some "2024-03-05_snack"], [⟨"100953", []⟩]⟩
      [⟨"100953", "Ivanov", "5A"⟩] "2024-03-05" = [] := by
  refine ⟨by decide, by decide, by decide, by decide⟩

end FoodBot
